import Mathlib

/-!
A shallow embedding of the arbitrage-monitor backend (`src/market_data.py`
and `src/main.py`).

Modelling conventions: Python floats are modelled as exact rationals (`ℚ`)
and Python's `round` as round-half-to-even on rationals; dictionaries are
association lists; `None`-able values are `Option`; a dictionary from which
a key is simply absent is modelled with the corresponding field `none`.
The fallible `yfinance` access inside `get_price` is an explicit input of
type `FetchOutcome`; the dict truthiness tests of the source
(`d.get("price")`, `if not latest_data`, `if t`) are modelled exactly
(a price of `0` is falsy, the initial `latest_data = {}` is `none`).
The background poller plus the lock-protected shared state are modelled as
an explicit interleaving state machine whose atomic actions are the
individual assignments of the critical sections.
-/

namespace Quant

/-- Python `round` to an integer: round half to even (banker's rounding),
modelled exactly on rationals. -/
def roundHalfEven (x : ℚ) : ℤ :=
  if x - (⌊x⌋ : ℚ) < 1/2 then ⌊x⌋
  else if 1/2 < x - (⌊x⌋ : ℚ) then ⌊x⌋ + 1
  else if ⌊x⌋ % 2 = 0 then ⌊x⌋ else ⌊x⌋ + 1

/-- Python `round(x, d)`: round to `d` decimal digits. -/
def roundTo (d : ℕ) (x : ℚ) : ℚ := (roundHalfEven (x * 10 ^ d) : ℚ) / 10 ^ d

/-- Python `dict` lookup (`d[k]`, `d.get(k)`, `d.get(k, {})`) on an
association list. -/
def lookupKey {β : Type} (k : String) : List (String × β) → Option β
  | [] => none
  | p :: rest => if p.1 = k then some p.2 else lookupKey k rest

/-! ## Configuration (`market_data.py`, `main.py`) -/

def FOREX_PAIRS : List (String × String) :=
  [("EUR/USD", "EURUSD=X"), ("GBP/USD", "GBPUSD=X"),
   ("USD/JPY", "USDJPY=X"), ("USD/CHF", "USDCHF=X")]

def COMMODITIES : List (String × String) :=
  [("WTI Crude Oil", "CL=F"), ("Brent Crude Oil", "BZ=F")]

structure Threshold where
  min : ℚ
  max : ℚ
deriving DecidableEq

def THRESHOLDS : List (String × Threshold) :=
  [("Brent-WTI Spread", ⟨-1.0, 5.0⟩),
   ("EUR/USD", ⟨1.05, 1.15⟩),
   ("GBP/USD", ⟨1.20, 1.35⟩)]

def MAX_HISTORY : ℕ := 100

/-! ## `market_data.get_price` and `market_data.fetch_all_prices` -/

/-- Outcome of the `yfinance` access in `get_price`: either the
`last_price` / `previous_close` attributes are obtained, or the access
raises (timeout, lookup error, missing data). -/
inductive FetchOutcome
  | ok (last_price previous_close : ℚ)
  | err (msg : String)

structure Quote where
  price : Option ℚ
  previous_close : Option ℚ
  change : Option ℚ
  change_pct : Option ℚ
  error : Option String
deriving DecidableEq

/-- `market_data.get_price`.  The whole body runs inside `try`: any raised
exception is caught and turned into the error-only dictionary
`{"price": None, "error": str(e)}`.  When `previous_close = 0` the body
itself raises `ZeroDivisionError` at `change / previous_close`, which the
same handler catches. -/
def get_price : FetchOutcome → Quote
  | .err msg =>
      { price := none, previous_close := none, change := none,
        change_pct := none, error := some msg }
  | .ok last_price previous_close =>
      if previous_close = 0 then
        { price := none, previous_close := none, change := none,
          change_pct := none, error := some "float division by zero" }
      else
        { price := some (roundTo 5 last_price),
          previous_close := some (roundTo 5 previous_close),
          change := some (roundTo 5 (last_price - previous_close)),
          change_pct :=
            some (roundTo 3 ((last_price - previous_close) / previous_close * 100)),
          error := none }

/-- One value of the `forex` / `commodities` dictionaries:
`{"symbol": symbol, **get_price(symbol)}`. -/
structure MarketEntry where
  symbol : String
  price : Option ℚ
  previous_close : Option ℚ
  change : Option ℚ
  change_pct : Option ℚ
  error : Option String
deriving DecidableEq

def entryOf (symbol : String) (q : Quote) : MarketEntry :=
  { symbol := symbol, price := q.price, previous_close := q.previous_close,
    change := q.change, change_pct := q.change_pct, error := q.error }

structure Snapshot where
  timestamp : String
  forex : List (String × MarketEntry)
  commodities : List (String × MarketEntry)
deriving DecidableEq

/-- `market_data.fetch_all_prices`, with the wall clock (`now`) and the
per-symbol fetch outcome (`env`) as explicit inputs. -/
def fetch_all_prices (now : String) (env : String → FetchOutcome) : Snapshot :=
  { timestamp := now,
    forex := FOREX_PAIRS.map (fun p => (p.1, entryOf p.2 (get_price (env p.2)))),
    commodities := COMMODITIES.map (fun p => (p.1, entryOf p.2 (get_price (env p.2)))) }

/-! ## `main.compute_alerts` -/

structure Alert where
  market : String
  type : String
  value : ℚ
  threshold : ℚ
  direction : String
  timestamp : String
deriving DecidableEq

/-- Loop body of the forex loop in `main.compute_alerts`.
`d.get("price")` is a truthiness test, so a price of exactly `0` is
skipped just like an absent one. -/
def forexAlertItem (ts name : String) (d : MarketEntry) : Option Alert :=
  match d.price with
  | some price =>
      if price ≠ 0 then
        match lookupKey name THRESHOLDS with
        | some t =>
            if price < t.min ∨ price > t.max then
              some { market := name, type := "FOREX", value := price,
                     threshold := if price < t.min then t.min else t.max,
                     direction := if price < t.min then "below_min" else "above_max",
                     timestamp := ts }
            else none
        | none => none
      else none
  | none => none

/-- `data[...].get(name, {}).get("price")` as a truthy value: the price of
an optional entry, with `None` and `0` both collapsing to "absent". -/
def truthyPrice (d : Option MarketEntry) : Option ℚ :=
  match d with
  | some e =>
      match e.price with
      | some p => if p ≠ 0 then some p else none
      | none => none
  | none => none

/-- The Brent-WTI spread block of `main.compute_alerts`.  The spread is
computed only when both prices are truthy; `THRESHOLDS.get(...)` returning
the falsy `{}` is the `none` case of `lookupKey`. -/
def spreadAlertOpt (data : Snapshot) : Option Alert :=
  match truthyPrice (lookupKey "WTI Crude Oil" data.commodities),
        truthyPrice (lookupKey "Brent Crude Oil" data.commodities) with
  | some w, some b =>
      match lookupKey "Brent-WTI Spread" THRESHOLDS with
      | some t =>
          if roundTo 3 (b - w) < t.min ∨ roundTo 3 (b - w) > t.max then
            some { market := "Brent-WTI Spread", type := "OIL_SPREAD",
                   value := roundTo 3 (b - w),
                   threshold := if roundTo 3 (b - w) < t.min then t.min else t.max,
                   direction := if roundTo 3 (b - w) < t.min then "below_min" else "above_max",
                   timestamp := data.timestamp }
          else none
      | none => none
  | _, _ => none

/-- `main.compute_alerts`. -/
def compute_alerts (data : Snapshot) : List Alert :=
  data.forex.filterMap (fun p => forexAlertItem data.timestamp p.1 p.2)
    ++ (spreadAlertOpt data).toList

/-! ## `market_data.check_thresholds` -/

/-- Loop body of the forex loop in `market_data.check_thresholds`:
extends the accumulated pair (current breach keys, new-alert lines) for one
instrument.  A line is recorded only when the key is not already active. -/
def checkForexItem (active : List String) (acc : List String × List String)
    (p : String × MarketEntry) : List String × List String :=
  match p.2.price with
  | some price =>
      if price ≠ 0 then
        match lookupKey p.1 THRESHOLDS with
        | some t =>
            if price < t.min ∨ price > t.max then
              (acc.1 ++ [p.1 ++ ":" ++ (if price < t.min then "BELOW min" else "ABOVE max")],
               if p.1 ++ ":" ++ (if price < t.min then "BELOW min" else "ABOVE max") ∈ active
               then acc.2
               else acc.2 ++ [p.1 ++ ":" ++ (if price < t.min then "BELOW min" else "ABOVE max")])
            else acc
        | none => acc
      else acc
  | none => acc

/-- The Brent-WTI spread block of `market_data.check_thresholds`. -/
def checkSpread (active : List String) (acc : List String × List String)
    (data : Snapshot) : List String × List String :=
  match truthyPrice (lookupKey "WTI Crude Oil" data.commodities),
        truthyPrice (lookupKey "Brent Crude Oil" data.commodities) with
  | some w, some b =>
      match lookupKey "Brent-WTI Spread" THRESHOLDS with
      | some t =>
          if roundTo 3 (b - w) < t.min ∨ roundTo 3 (b - w) > t.max then
            (acc.1 ++ ["Brent-WTI:" ++ (if roundTo 3 (b - w) < t.min then "BELOW min" else "ABOVE max")],
             if "Brent-WTI:" ++ (if roundTo 3 (b - w) < t.min then "BELOW min" else "ABOVE max") ∈ active
             then acc.2
             else acc.2 ++ ["Brent-WTI:" ++ (if roundTo 3 (b - w) < t.min then "BELOW min" else "ABOVE max")])
          else acc
      | none => acc
  | _, _ => acc

/-- `market_data.check_thresholds`, with the global `active_alerts` made an
explicit argument.  Returns `(current_alerts, alert_lines, resolved)`;
the source ends with `active_alerts = current_alerts`, so the state carried
into the next cycle is exactly the first component. -/
def check_thresholds (data : Snapshot) (active : List String) :
    List String × List String × List String :=
  let acc := data.forex.foldl (checkForexItem active) ([], [])
  let acc := checkSpread active acc data
  (acc.1, acc.2, active.filter (fun k => decide (k ∉ acc.1)))

/-! ## Shared state and endpoints of `main.py` -/

abbrev HistoryEntry : Type := Snapshot × List Alert

/-- `deque(maxlen=cap)` append: keeps the last `cap` elements. -/
def dequeAppend {α : Type} (cap : ℕ) (xs : List α) (x : α) : List α :=
  let ys := xs ++ [x]
  if cap < ys.length then ys.drop (ys.length - cap) else ys

structure StoreState where
  latest_data : Option Snapshot
  active_alerts : List Alert
  history : List HistoryEntry

/-- Initial shared state of `main`: `latest_data = {}` (falsy), no alerts,
empty history. -/
def initialState : StoreState := ⟨none, [], []⟩

/-- The locked section of one `poller` iteration: set `latest_data`, set
`active_alerts`, append `{**data, "alerts": alerts}` to `history`. -/
def publish (s : StoreState) (data : Snapshot) (alerts : List Alert) : StoreState :=
  { latest_data := some data, active_alerts := alerts,
    history := dequeAppend MAX_HISTORY s.history (data, alerts) }

def applyPublishes (l : List (Snapshot × List Alert)) : StoreState :=
  l.foldl (fun s p => publish s p.1 p.2) initialState

structure PricesResponse where
  status : String
  data : Option Snapshot
deriving DecidableEq

/-- `GET /prices`: `latest_data` is falsy (the initial empty dict) only
before the first publish; `fetch_all_prices` results always carry a
`timestamp` key, hence are truthy. -/
def prices (s : StoreState) : PricesResponse :=
  match s.latest_data with
  | none => ⟨"loading", none⟩
  | some d => ⟨"ok", some d⟩

/-- `GET /alerts`: count and list of active alerts. -/
def alertsResponse (s : StoreState) : ℕ × List Alert :=
  (s.active_alerts.length, s.active_alerts)

/-- Python slice `xs[i:]` for an arbitrary integer start index. -/
def pySliceFrom {α : Type} (xs : List α) (i : ℤ) : List α :=
  if i < 0 then xs.drop (max 0 ((xs.length : ℤ) + i)).toNat else xs.drop i.toNat

/-- `GET /history`: `list(history)[-limit:]`. -/
def get_history (s : StoreState) (limit : ℤ) : List HistoryEntry :=
  pySliceFrom s.history (-limit)

/-! ## Claim C7 -/

/-- Claim C7: every `Quote` produced by `get_price` has exactly one of
`price` and `error` populated: the price is absent exactly when an error is
recorded; a raising fetch yields the error-only quote carrying the
exception text; a non-raising fetch (with a nonzero `previous_close`)
yields a priced quote with `error = None`. -/
theorem claim_C7_price_xor_error :
    (∀ o : FetchOutcome, (get_price o).price = none ↔ (get_price o).error.isSome) ∧
    (∀ msg, get_price (.err msg) =
      { price := none, previous_close := none, change := none,
        change_pct := none, error := some msg }) ∧
    (∀ lp pc : ℚ, pc ≠ 0 →
      (get_price (.ok lp pc)).price = some (roundTo 5 lp) ∧
      (get_price (.ok lp pc)).error = none) := by
  refine ⟨fun o => ?_, fun msg => rfl, fun lp pc h => ?_⟩
  · cases o with
    | err m => simp [get_price]
    | ok lp pc =>
        by_cases h : pc = 0 <;> simp [get_price, h]
  · simp [get_price, h]

/-- Witness for C7 at a concrete nonzero previous close. -/
theorem claim_C7_witness :
    (get_price (.ok 2 1)).price = some (roundTo 5 2) ∧
    (get_price (.ok 2 1)).error = none :=
  claim_C7_price_xor_error.2.2 2 1 (by norm_num)

/-! ## Lemmas about the store -/

theorem dequeAppend_eq_drop {α : Type} (cap : ℕ) (xs : List α) (x : α) :
    dequeAppend cap xs x = (xs ++ [x]).drop (xs.length + 1 - cap) := by
  unfold dequeAppend
  simp only [List.length_append, List.length_singleton]
  split
  · rfl
  · next h =>
      have h0 : xs.length + 1 - cap = 0 := by omega
      simp [h0]

theorem applyPublishes_append (l : List (Snapshot × List Alert))
    (p : Snapshot × List Alert) :
    applyPublishes (l ++ [p]) = publish (applyPublishes l) p.1 p.2 := by
  simp [applyPublishes, List.foldl_append]

theorem applyPublishes_history (l : List (Snapshot × List Alert)) :
    (applyPublishes l).history = l.drop (l.length - MAX_HISTORY) := by
  induction l using List.reverseRecOn with
  | nil => rfl
  | append_singleton l p ih =>
      rw [applyPublishes_append]
      show dequeAppend MAX_HISTORY (applyPublishes l).history (p.1, p.2) =
        (l ++ [p]).drop ((l ++ [p]).length - MAX_HISTORY)
      rw [ih, dequeAppend_eq_drop, List.drop_append_eq_append_drop,
        List.drop_append_eq_append_drop, List.drop_drop]
      simp only [List.length_drop, List.length_append, List.length_singleton, MAX_HISTORY]
      have e1 : l.length - 100 + (l.length - (l.length - 100) + 1 - 100) =
          l.length + 1 - 100 := by omega
      have e2 : l.length - (l.length - 100) + 1 - 100 - (l.length - (l.length - 100)) =
          l.length + 1 - 100 - l.length := by omega
      rw [e1, e2]

theorem applyPublishes_latest (l : List (Snapshot × List Alert))
    (p : Snapshot × List Alert) (h : l.getLast? = some p) :
    (applyPublishes l).latest_data = some p.1 ∧
    (applyPublishes l).active_alerts = p.2 := by
  induction l using List.reverseRecOn with
  | nil => cases h
  | append_singleton l q ih =>
      rw [List.getLast?_concat] at h
      obtain rfl : q = p := by injection h
      rw [applyPublishes_append]
      exact ⟨rfl, rfl⟩

/-! ## Claim C9 -/

/-- Claim C9: under any sequence of publishes the history deque
(`maxlen = MAX_HISTORY`) never holds more than `MAX_HISTORY` entries; after
`MAX_HISTORY + 1` publishes the history is exactly the published sequence
minus its first (oldest) entry — FIFO eviction — and its newest entry is
the most recently published one. -/
theorem claim_C9_history_bounded (l : List (Snapshot × List Alert)) :
    (applyPublishes l).history.length ≤ MAX_HISTORY ∧
    (l.length = MAX_HISTORY + 1 →
      (applyPublishes l).history = l.drop 1 ∧
      (applyPublishes l).history.getLast? = l.getLast?) := by
  have hM : MAX_HISTORY = 100 := rfl
  refine ⟨?_, fun h => ⟨?_, ?_⟩⟩
  · rw [applyPublishes_history, List.length_drop]; omega
  · rw [applyPublishes_history, h]; norm_num [MAX_HISTORY]
  · rw [applyPublishes_history, List.getLast?_drop, if_neg (by omega)]

/-- Witness for C9: 101 publishes of a concrete entry. -/
theorem claim_C9_witness :
    (applyPublishes (List.replicate 101 ((⟨"t", [], []⟩ : Snapshot), ([] : List Alert)))).history =
      (List.replicate 101 ((⟨"t", [], []⟩ : Snapshot), ([] : List Alert))).drop 1 :=
  ((claim_C9_history_bounded _).2 (by simp [MAX_HISTORY])).1

/-! ## Claim C5 -/

/-- Claim C5: before the first publish, `GET /prices` answers the explicit
`loading` status with no data; after any nonempty sequence of publishes it
answers `ok` with exactly the snapshot of the last published pair, and the
stored alerts are exactly the alerts of that same pair. -/
theorem claim_C5_read_latest :
    prices initialState = ⟨"loading", none⟩ ∧
    ∀ (l : List (Snapshot × List Alert)) (p : Snapshot × List Alert),
      l.getLast? = some p →
      prices (applyPublishes l) = ⟨"ok", some p.1⟩ ∧
      (applyPublishes l).active_alerts = p.2 := by
  refine ⟨rfl, fun l p h => ?_⟩
  obtain ⟨h1, h2⟩ := applyPublishes_latest l p h
  exact ⟨by rw [prices, h1], h2⟩

/-- Witness for C5 after a single concrete publish. -/
theorem claim_C5_witness :
    prices (applyPublishes [((⟨"t", [], []⟩ : Snapshot), ([] : List Alert))]) =
      ⟨"ok", some ⟨"t", [], []⟩⟩ ∧
    (applyPublishes [((⟨"t", [], []⟩ : Snapshot), ([] : List Alert))]).active_alerts = [] :=
  claim_C5_read_latest.2 [((⟨"t", [], []⟩ : Snapshot), ([] : List Alert))]
    ((⟨"t", [], []⟩ : Snapshot), ([] : List Alert)) (by simp)

/-! ## Claim C4 -/

/-- Claim C4 (amended to positive limits): for every limit ≥ 1 the history
read returns exactly the most-recent `min limit (stored)` entries — the
suffix of the stored history, newest last, no padding — so the returned
count never exceeds the limit.  (For `limit = 0` Python's `[-0:]` slice
returns the whole list, and for negative limits it drops entries from the
front; see the counterexample.) -/
theorem claim_C4_history_read (s : StoreState) (limit : ℤ) (h : 1 ≤ limit) :
    get_history s limit = s.history.drop (s.history.length - limit.toNat) ∧
    (get_history s limit).length = min limit.toNat s.history.length ∧
    s.history = s.history.take (s.history.length - limit.toNat) ++ get_history s limit := by
  have hdrop : get_history s limit = s.history.drop (s.history.length - limit.toNat) := by
    unfold get_history pySliceFrom
    rw [if_pos (by omega)]
    congr 1
    omega
  refine ⟨hdrop, ?_, ?_⟩
  · rw [hdrop, List.length_drop]; omega
  · rw [hdrop, List.take_append_drop]

/-- Witness for C4: five publishes, `limit = 20` returns all five entries. -/
theorem claim_C4_witness :
    get_history (applyPublishes (List.replicate 5 ((⟨"t", [], []⟩ : Snapshot), ([] : List Alert)))) 20 =
      (applyPublishes (List.replicate 5 ((⟨"t", [], []⟩ : Snapshot), ([] : List Alert)))).history := by
  have h := (claim_C4_history_read
    (applyPublishes (List.replicate 5 ((⟨"t", [], []⟩ : Snapshot), ([] : List Alert)))) 20
    (by norm_num)).1
  rw [h]
  norm_num [show (applyPublishes (List.replicate 5 ((⟨"t", [], []⟩ : Snapshot), ([] : List Alert)))).history.length = 5 by decide]

/-- Counterexample for C4 as frozen: with one stored entry and integer
limit `0`, the read returns one entry, so the returned count exceeds the
limit and is not `min 0 1 = 0`. -/
theorem claim_C4_counterexample :
    (get_history (applyPublishes [((⟨"t", [], []⟩ : Snapshot), ([] : List Alert))]) 0).length = 1 ∧
    ¬ ((get_history (applyPublishes [((⟨"t", [], []⟩ : Snapshot), ([] : List Alert))]) 0).length ≤ 0) := by
  constructor
  · rfl
  · decide

/-! ## Lemmas about `compute_alerts` -/

theorem forexAlertItem_some {ts name : String} {d : MarketEntry} {a : Alert}
    (h : forexAlertItem ts name d = some a) :
    a.market = name ∧ a.type = "FOREX" := by
  unfold forexAlertItem at h
  repeat' split at h
  all_goals first
    | exact Option.noConfusion h
    | (injection h with h'; subst h'; exact ⟨rfl, rfl⟩)

theorem spreadAlertOpt_some {data : Snapshot} {a : Alert}
    (h : spreadAlertOpt data = some a) :
    ∃ w b t, truthyPrice (lookupKey "WTI Crude Oil" data.commodities) = some w ∧
      truthyPrice (lookupKey "Brent Crude Oil" data.commodities) = some b ∧
      lookupKey "Brent-WTI Spread" THRESHOLDS = some t ∧
      a.market = "Brent-WTI Spread" ∧ a.type = "OIL_SPREAD" ∧
      a.value = roundTo 3 (b - w) := by
  unfold spreadAlertOpt at h
  split at h
  · split at h
    · split at h
      · injection h with h'
        subst h'
        rename_i x1 x2 w b hw hb x3 t ht hbr
        exact ⟨w, b, t, hw, hb, ht, rfl, rfl, rfl⟩
      · exact Option.noConfusion h
    · exact Option.noConfusion h
  · exact Option.noConfusion h

theorem filter_market_forexPart {ts name : String} {l : List (String × MarketEntry)}
    (h : name ∉ l.map Prod.fst) :
    (l.filterMap (fun p => forexAlertItem ts p.1 p.2)).filter
      (fun a => decide (a.market = name)) = [] := by
  induction l with
  | nil => rfl
  | cons hd tl ih =>
      simp only [List.map_cons, List.mem_cons, not_or] at h
      obtain ⟨h1, h2⟩ := h
      cases hit : forexAlertItem ts hd.1 hd.2 with
      | none => simp only [List.filterMap_cons, hit]; exact ih h2
      | some a =>
          simp only [List.filterMap_cons, hit]
          rw [List.filter_cons_of_neg, ih h2]
          simp only [(forexAlertItem_some hit).1, decide_eq_true_eq]
          exact fun hh => h1 hh.symm

theorem filter_market_lookup {ts name : String} {l : List (String × MarketEntry)}
    {e : MarketEntry}
    (hnd : (l.map Prod.fst).Nodup) (hl : lookupKey name l = some e) :
    (l.filterMap (fun p => forexAlertItem ts p.1 p.2)).filter
      (fun a => decide (a.market = name)) = (forexAlertItem ts name e).toList := by
  induction l with
  | nil => exact Option.noConfusion hl
  | cons hd tl ih =>
      rw [List.map_cons, List.nodup_cons] at hnd
      obtain ⟨hni, hnd'⟩ := hnd
      unfold lookupKey at hl
      by_cases hk : hd.1 = name
      · rw [if_pos hk] at hl
        obtain rfl : hd.2 = e := by injection hl
        subst hk
        cases hit : forexAlertItem ts hd.1 hd.2 with
        | none =>
            simp only [List.filterMap_cons, hit]
            rw [filter_market_forexPart hni]
            simp [hit]
        | some a =>
            simp only [List.filterMap_cons, hit]
            rw [List.filter_cons_of_pos, filter_market_forexPart hni]
            · simp [hit]
            · simp [(forexAlertItem_some hit).1]
      · rw [if_neg hk] at hl
        cases hit : forexAlertItem ts hd.1 hd.2 with
        | none => simp only [List.filterMap_cons, hit]; exact ih hnd' hl
        | some a =>
            simp only [List.filterMap_cons, hit]
            rw [List.filter_cons_of_neg]
            · exact ih hnd' hl
            · simp only [(forexAlertItem_some hit).1, decide_eq_true_eq]
              exact hk

theorem filter_market_compute {data : Snapshot} {name : String} {e : MarketEntry}
    (hnd : (data.forex.map Prod.fst).Nodup)
    (hl : lookupKey name data.forex = some e)
    (hname : name ≠ "Brent-WTI Spread") :
    (compute_alerts data).filter (fun a => decide (a.market = name)) =
      (forexAlertItem data.timestamp name e).toList := by
  unfold compute_alerts
  rw [List.filter_append, filter_market_lookup hnd hl]
  have hspread : ((spreadAlertOpt data).toList).filter
      (fun a => decide (a.market = name)) = [] := by
    cases hs : spreadAlertOpt data with
    | none => rfl
    | some a =>
        obtain ⟨w, b, t, _, _, _, hm, _, _⟩ := spreadAlertOpt_some hs
        have hne : ¬ ("Brent-WTI Spread" = name) := fun hh => hname hh.symm
        simp [hm, hne]
  rw [hspread, List.append_nil]

theorem filter_spread_compute {data : Snapshot}
    (hspf : "Brent-WTI Spread" ∉ data.forex.map Prod.fst) :
    (compute_alerts data).filter
      (fun a => decide (a.market = "Brent-WTI Spread")) =
      (spreadAlertOpt data).toList := by
  unfold compute_alerts
  rw [List.filter_append, filter_market_forexPart hspf, List.nil_append]
  cases hs : spreadAlertOpt data with
  | none => rfl
  | some a =>
      obtain ⟨w, b, t, _, _, _, hm, _, _⟩ := spreadAlertOpt_some hs
      simp [hm]

theorem compute_alerts_spread_mem {data : Snapshot} {a : Alert}
    (ha : a ∈ compute_alerts data) (ht : a.type = "OIL_SPREAD") :
    spreadAlertOpt data = some a := by
  unfold compute_alerts at ha
  rcases List.mem_append.mp ha with h | h
  · obtain ⟨p, _, hit⟩ := List.mem_filterMap.mp h
    have h2 := (forexAlertItem_some hit).2
    rw [ht] at h2
    exact absurd h2 (by decide)
  · cases hs : spreadAlertOpt data with
    | none => rw [hs] at h; simp at h
    | some b =>
        rw [hs] at h
        simp only [Option.toList_some, List.mem_singleton] at h
        rw [h]

theorem filter_spread_of_none {data : Snapshot}
    (hs : spreadAlertOpt data = none) :
    (compute_alerts data).filter (fun a => decide (a.type = "OIL_SPREAD")) = [] := by
  unfold compute_alerts
  rw [List.filter_append, hs]
  have hforex : (data.forex.filterMap
      (fun p => forexAlertItem data.timestamp p.1 p.2)).filter
      (fun a => decide (a.type = "OIL_SPREAD")) = [] := by
    rw [List.filter_eq_nil_iff]
    intro a ha
    obtain ⟨p, _, hit⟩ := List.mem_filterMap.mp ha
    simp [(forexAlertItem_some hit).2]
  rw [hforex]
  rfl

/-! ## Claim C1 -/

/-- Claim C1: for a configured band with `min < max` and a checked subject
(a forex instrument with a truthy price, or the Brent-WTI spread with both
constituent prices truthy), exactly one alert for that subject is emitted
when the value is strictly outside `[min, max]` — `below_min` with breached
bound `min` when `value < min`, `above_max` with breached bound `max` when
`value > max` — and no alert is emitted when the value is inside the band
or exactly equal to either bound. -/
theorem claim_C1_threshold_trichotomy
    (data : Snapshot) (name : String) (e : MarketEntry) (p : ℚ) (t : Threshold)
    (w b : ℚ) (t' : Threshold)
    (hnd : (data.forex.map Prod.fst).Nodup)
    (hl : lookupKey name data.forex = some e)
    (hp : e.price = some p) (hp0 : p ≠ 0)
    (ht : lookupKey name THRESHOLDS = some t)
    (hband : t.min < t.max)
    (hname : name ≠ "Brent-WTI Spread")
    (hspf : "Brent-WTI Spread" ∉ data.forex.map Prod.fst)
    (hw : truthyPrice (lookupKey "WTI Crude Oil" data.commodities) = some w)
    (hb : truthyPrice (lookupKey "Brent Crude Oil" data.commodities) = some b)
    (ht' : lookupKey "Brent-WTI Spread" THRESHOLDS = some t')
    (hband' : t'.min < t'.max) :
    ((p < t.min →
        (compute_alerts data).filter (fun a => decide (a.market = name)) =
          [⟨name, "FOREX", p, t.min, "below_min", data.timestamp⟩]) ∧
     (p > t.max →
        (compute_alerts data).filter (fun a => decide (a.market = name)) =
          [⟨name, "FOREX", p, t.max, "above_max", data.timestamp⟩]) ∧
     (t.min ≤ p → p ≤ t.max →
        (compute_alerts data).filter (fun a => decide (a.market = name)) = [])) ∧
    ((roundTo 3 (b - w) < t'.min →
        (compute_alerts data).filter (fun a => decide (a.market = "Brent-WTI Spread")) =
          [⟨"Brent-WTI Spread", "OIL_SPREAD", roundTo 3 (b - w), t'.min, "below_min",
            data.timestamp⟩]) ∧
     (roundTo 3 (b - w) > t'.max →
        (compute_alerts data).filter (fun a => decide (a.market = "Brent-WTI Spread")) =
          [⟨"Brent-WTI Spread", "OIL_SPREAD", roundTo 3 (b - w), t'.max, "above_max",
            data.timestamp⟩]) ∧
     (t'.min ≤ roundTo 3 (b - w) → roundTo 3 (b - w) ≤ t'.max →
        (compute_alerts data).filter
          (fun a => decide (a.market = "Brent-WTI Spread")) = [])) := by
  have hfx := filter_market_compute hnd hl hname
  have hsp := filter_spread_compute hspf
  constructor
  · refine ⟨fun hlt => ?_, fun hgt => ?_, fun hge hle => ?_⟩
    · rw [hfx]
      simp [forexAlertItem, hp, hp0, ht, hlt]
    · have hnlt : ¬ p < t.min := by linarith
      rw [hfx]
      simp [forexAlertItem, hp, hp0, ht, hgt, hnlt]
    · have hnlt : ¬ p < t.min := by linarith
      have hngt : ¬ p > t.max := by linarith
      rw [hfx]
      simp [forexAlertItem, hp, hp0, ht, hnlt, hngt]
  · refine ⟨fun hlt => ?_, fun hgt => ?_, fun hge hle => ?_⟩
    · rw [hsp]
      simp [spreadAlertOpt, hw, hb, ht', hlt]
    · have hnlt : ¬ roundTo 3 (b - w) < t'.min := by linarith
      rw [hsp]
      simp [spreadAlertOpt, hw, hb, ht', hgt, hnlt]
    · have hnlt : ¬ roundTo 3 (b - w) < t'.min := by linarith
      have hngt : ¬ roundTo 3 (b - w) > t'.max := by linarith
      rw [hsp]
      simp [spreadAlertOpt, hw, hb, ht', hnlt, hngt]

/-- Shared concrete snapshot entries for witnesses. -/
def mkEntry (symbol : String) (p : Option ℚ) : MarketEntry :=
  { symbol := symbol, price := p, previous_close := p,
    change := some 0, change_pct := some 0, error := none }

def c1data : Snapshot :=
  { timestamp := "t",
    forex := [("EUR/USD", mkEntry "EURUSD=X" (some 1.02))],
    commodities := [("WTI Crude Oil", mkEntry "CL=F" (some 70)),
                    ("Brent Crude Oil", mkEntry "BZ=F" (some 76.5))] }

/-- Witness for C1: EUR/USD at 1.02 against {1.05, 1.15} fires exactly the
below-min alert. -/
theorem claim_C1_witness :
    (compute_alerts c1data).filter (fun a => decide (a.market = "EUR/USD")) =
      [⟨"EUR/USD", "FOREX", 1.02, 1.05, "below_min", "t"⟩] := by
  have h := claim_C1_threshold_trichotomy c1data "EUR/USD"
      (mkEntry "EURUSD=X" (some 1.02)) 1.02 ⟨1.05, 1.15⟩ 70 76.5 ⟨-1.0, 5.0⟩
      (by simp [c1data]) rfl rfl (by norm_num) rfl (by norm_num) (by decide) (by decide)
      rfl
      (by
        have hlb : lookupKey "Brent Crude Oil" c1data.commodities =
            some (mkEntry "BZ=F" (some 76.5)) := rfl
        rw [hlb]
        norm_num [truthyPrice, mkEntry])
      rfl (by norm_num)
  exact h.1.1 (by norm_num)

/-! ## Claim C10 -/

/-- Claim C10: a quote whose price field is populated with exactly `0` is
treated as absent — `compute_alerts` performs no threshold check for that
subject and computes no spread from it whether the zero price is the WTI
or the Brent constituent (each side's truthiness guard suffices on its
own, with the other side arbitrary), and likewise both the forex loop body
and the spread block of `check_thresholds` leave their accumulator
unchanged — because the source tests presence with dict truthiness
(`d.get("price")`), not with non-nullness. -/
theorem claim_C10_zero_price_absent :
    (∀ (data : Snapshot) (name : String) (e : MarketEntry),
       (data.forex.map Prod.fst).Nodup →
       lookupKey name data.forex = some e → e.price = some 0 →
       name ≠ "Brent-WTI Spread" →
       (compute_alerts data).filter (fun a => decide (a.market = name)) = []) ∧
    (∀ (data : Snapshot) (e : MarketEntry),
       lookupKey "WTI Crude Oil" data.commodities = some e → e.price = some 0 →
       (compute_alerts data).filter (fun a => decide (a.type = "OIL_SPREAD")) = []) ∧
    (∀ (data : Snapshot) (e : MarketEntry),
       lookupKey "Brent Crude Oil" data.commodities = some e → e.price = some 0 →
       (compute_alerts data).filter (fun a => decide (a.type = "OIL_SPREAD")) = []) ∧
    (∀ (active : List String) (acc : List String × List String)
       (name : String) (e : MarketEntry),
       e.price = some 0 → checkForexItem active acc (name, e) = acc) ∧
    (∀ (data : Snapshot) (active : List String)
       (acc : List String × List String) (e : MarketEntry),
       lookupKey "WTI Crude Oil" data.commodities = some e → e.price = some 0 →
       checkSpread active acc data = acc) ∧
    (∀ (data : Snapshot) (active : List String)
       (acc : List String × List String) (e : MarketEntry),
       lookupKey "Brent Crude Oil" data.commodities = some e → e.price = some 0 →
       checkSpread active acc data = acc) := by
  refine ⟨fun data name e hnd hl hp hname => ?_, fun data e hl hp => ?_,
    fun data e hl hp => ?_, fun active acc name e hp => ?_,
    fun data active acc e hl hp => ?_, fun data active acc e hl hp => ?_⟩
  · rw [filter_market_compute hnd hl hname]
    simp [forexAlertItem, hp]
  · have hs : spreadAlertOpt data = none := by
      simp [spreadAlertOpt, truthyPrice, hl, hp]
    exact filter_spread_of_none hs
  · have hb : truthyPrice (lookupKey "Brent Crude Oil" data.commodities) = none := by
      simp [truthyPrice, hl, hp]
    have hs : spreadAlertOpt data = none := by
      unfold spreadAlertOpt
      rcases hw : truthyPrice (lookupKey "WTI Crude Oil" data.commodities) with _ | w
      · rfl
      · rw [hb]
    exact filter_spread_of_none hs
  · simp [checkForexItem, hp]
  · have hw : truthyPrice (lookupKey "WTI Crude Oil" data.commodities) = none := by
      simp [truthyPrice, hl, hp]
    unfold checkSpread
    rw [hw]
  · have hb : truthyPrice (lookupKey "Brent Crude Oil" data.commodities) = none := by
      simp [truthyPrice, hl, hp]
    unfold checkSpread
    rcases hw : truthyPrice (lookupKey "WTI Crude Oil" data.commodities) with _ | w
    · rfl
    · rw [hb]

def c10data : Snapshot :=
  { timestamp := "t",
    forex := [("EUR/USD", mkEntry "EURUSD=X" (some 0))],
    commodities := [("WTI Crude Oil", mkEntry "CL=F" (some 0)),
                    ("Brent Crude Oil", mkEntry "BZ=F" (some 76.5))] }

/-- A snapshot in which the Brent price is exactly `0` while the WTI price
is present and truthy, so only Brent's own truthiness guard suppresses the
spread. -/
def c10bdata : Snapshot :=
  { timestamp := "t", forex := [],
    commodities := [("WTI Crude Oil", mkEntry "CL=F" (some 70)),
                    ("Brent Crude Oil", mkEntry "BZ=F" (some 0))] }

/-- Witness for C10 on concrete zero-priced quotes: a zero forex price, a
zero WTI price, and a zero Brent price with WTI present and truthy, in
both `compute_alerts` and `check_thresholds`' spread block. -/
theorem claim_C10_witness :
    (compute_alerts c10data).filter (fun a => decide (a.market = "EUR/USD")) = [] ∧
    (compute_alerts c10data).filter (fun a => decide (a.type = "OIL_SPREAD")) = [] ∧
    (compute_alerts c10bdata).filter (fun a => decide (a.type = "OIL_SPREAD")) = [] ∧
    checkForexItem [] ([], []) ("EUR/USD", mkEntry "EURUSD=X" (some 0)) = ([], []) ∧
    checkSpread [] ([], []) c10data = ([], []) ∧
    checkSpread [] ([], []) c10bdata = ([], []) :=
  ⟨claim_C10_zero_price_absent.1 c10data "EUR/USD" (mkEntry "EURUSD=X" (some 0))
      (by simp [c10data]) rfl rfl (by decide),
   claim_C10_zero_price_absent.2.1 c10data (mkEntry "CL=F" (some 0)) rfl rfl,
   claim_C10_zero_price_absent.2.2.1 c10bdata (mkEntry "BZ=F" (some 0)) rfl rfl,
   claim_C10_zero_price_absent.2.2.2.1 [] ([], []) "EUR/USD"
     (mkEntry "EURUSD=X" (some 0)) rfl,
   claim_C10_zero_price_absent.2.2.2.2.1 c10data [] ([], [])
     (mkEntry "CL=F" (some 0)) rfl rfl,
   claim_C10_zero_price_absent.2.2.2.2.2 c10bdata [] ([], [])
     (mkEntry "BZ=F" (some 0)) rfl rfl⟩

/-! ## Rounding lemmas and Claim C8 -/

theorem roundHalfEven_intCast (n : ℤ) : roundHalfEven (n : ℚ) = n := by
  simp [roundHalfEven]

theorem roundHalfEven_close (x : ℚ) : |(roundHalfEven x : ℚ) - x| ≤ 1 / 2 := by
  have hfl : (⌊x⌋ : ℚ) ≤ x := Int.floor_le x
  have hfu : x < ⌊x⌋ + 1 := Int.lt_floor_add_one x
  unfold roundHalfEven
  split_ifs with hr1 hr2 hr3 <;>
    · rw [abs_le]
      constructor <;> push_cast <;> linarith

theorem roundTo_close (d : ℕ) (x : ℚ) : |roundTo d x - x| ≤ 1 / (2 * 10 ^ d) := by
  have h10 : (0:ℚ) < 10 ^ d := by positivity
  have key : roundTo d x - x =
      ((roundHalfEven (x * 10 ^ d) : ℚ) - x * 10 ^ d) / 10 ^ d := by
    unfold roundTo
    field_simp
    ring
  rw [key, abs_div, abs_of_pos h10,
    show (1:ℚ) / (2 * 10 ^ d) = (1 / 2) / 10 ^ d from (div_div 1 2 (10 ^ d)).symm,
    div_le_div_iff_of_pos_right h10]
  exact roundHalfEven_close _

def c8data : Snapshot :=
  { timestamp := "t", forex := [],
    commodities := [("WTI Crude Oil", mkEntry "CL=F" (some 70)),
                    ("Brent Crude Oil", mkEntry "BZ=F" (some 76.5))] }

/-- Claim C8: every priced quote carries values of fixed decimal precision
(price, previous close and change at 5 decimals, change percentage at 3),
with the rounded price within half an ulp of the raw price; every spread
alert's value equals `round(priceB - priceA, 3)` and exists only when both
constituent prices are present (truthy); and concretely Brent 76.5 minus
WTI 70.0 yields spread 6.5, breaching the configured max 5.0 as
`above_max`. -/
theorem claim_C8_fixed_precision :
    (∀ lp pc : ℚ, pc ≠ 0 →
      (∃ n : ℤ, (get_price (.ok lp pc)).price = some ((n : ℚ) / 10 ^ 5)) ∧
      (∃ n : ℤ, (get_price (.ok lp pc)).previous_close = some ((n : ℚ) / 10 ^ 5)) ∧
      (∃ n : ℤ, (get_price (.ok lp pc)).change = some ((n : ℚ) / 10 ^ 5)) ∧
      (∃ n : ℤ, (get_price (.ok lp pc)).change_pct = some ((n : ℚ) / 10 ^ 3)) ∧
      (∀ q : ℚ, (get_price (.ok lp pc)).price = some q →
        |q - lp| ≤ 1 / (2 * 10 ^ 5))) ∧
    (∀ (data : Snapshot) (a : Alert), a ∈ compute_alerts data →
      a.type = "OIL_SPREAD" →
      ∃ w b : ℚ,
        truthyPrice (lookupKey "WTI Crude Oil" data.commodities) = some w ∧
        truthyPrice (lookupKey "Brent Crude Oil" data.commodities) = some b ∧
        a.value = roundTo 3 (b - w)) ∧
    (compute_alerts c8data).filter (fun a => decide (a.type = "OIL_SPREAD")) =
      [⟨"Brent-WTI Spread", "OIL_SPREAD", 6.5, 5.0, "above_max", "t"⟩] := by
  refine ⟨fun lp pc h => ?_, fun data a ha htype => ?_, ?_⟩
  · have hg : get_price (.ok lp pc) =
        { price := some (roundTo 5 lp), previous_close := some (roundTo 5 pc),
          change := some (roundTo 5 (lp - pc)),
          change_pct := some (roundTo 3 ((lp - pc) / pc * 100)), error := none } := by
      simp [get_price, h]
    refine ⟨⟨roundHalfEven (lp * 10 ^ 5), by rw [hg]; rfl⟩,
            ⟨roundHalfEven (pc * 10 ^ 5), by rw [hg]; rfl⟩,
            ⟨roundHalfEven ((lp - pc) * 10 ^ 5), by rw [hg]; rfl⟩,
            ⟨roundHalfEven ((lp - pc) / pc * 100 * 10 ^ 3), by rw [hg]; rfl⟩,
            fun q hq => ?_⟩
    rw [hg] at hq
    obtain rfl : roundTo 5 lp = q := by injection hq
    exact roundTo_close 5 lp
  · have hs := compute_alerts_spread_mem ha htype
    obtain ⟨w, b, t, hw, hb, ht, _, _, hv⟩ := spreadAlertOpt_some hs
    exact ⟨w, b, hw, hb, hv⟩
  · have hb : truthyPrice (lookupKey "Brent Crude Oil" c8data.commodities) =
        some 76.5 := by
      have hlb : lookupKey "Brent Crude Oil" c8data.commodities =
          some (mkEntry "BZ=F" (some 76.5)) := rfl
      rw [hlb]
      norm_num [truthyPrice, mkEntry]
    have hw : truthyPrice (lookupKey "WTI Crude Oil" c8data.commodities) =
        some 70 := rfl
    have ht : lookupKey "Brent-WTI Spread" THRESHOLDS =
        some ⟨-1.0, 5.0⟩ := rfl
    have hr : roundTo 3 ((13:ℚ) / 2) = 13 / 2 := by
      have h : ((13:ℚ) / 2) * 10 ^ 3 = ((6500:ℤ):ℚ) := by norm_num
      rw [roundTo, h, roundHalfEven_intCast]
      norm_num
    have hsp : spreadAlertOpt c8data =
        some ⟨"Brent-WTI Spread", "OIL_SPREAD", 6.5, 5.0, "above_max", "t"⟩ := by
      norm_num [spreadAlertOpt, hw, hb, ht, hr,
        show c8data.timestamp = "t" from rfl]
    unfold compute_alerts
    rw [hsp, show c8data.forex = [] from rfl]
    simp

/-- Witness for C8's quantified precision clause at a concrete fetch. -/
theorem claim_C8_witness :
    ∃ n : ℤ, (get_price (.ok 1.23456789 1)).price = some ((n : ℚ) / 10 ^ 5) :=
  (claim_C8_fixed_precision.1 1.23456789 1 (by norm_num)).1

/-! ## Lemmas about `check_thresholds` and Claim C6 -/

/-- The breach key (`f"{name}:{direction}"`) that one forex item of
`check_thresholds` produces, if any. -/
def forexBreachKey (p : String × MarketEntry) : Option String :=
  match p.2.price with
  | some price =>
      if price ≠ 0 then
        match lookupKey p.1 THRESHOLDS with
        | some t =>
            if price < t.min ∨ price > t.max then
              some (p.1 ++ ":" ++ (if price < t.min then "BELOW min" else "ABOVE max"))
            else none
        | none => none
      else none
  | none => none

/-- The breach key that the spread block of `check_thresholds` produces,
if any. -/
def spreadBreachKey (data : Snapshot) : Option String :=
  match truthyPrice (lookupKey "WTI Crude Oil" data.commodities),
        truthyPrice (lookupKey "Brent Crude Oil" data.commodities) with
  | some w, some b =>
      match lookupKey "Brent-WTI Spread" THRESHOLDS with
      | some t =>
          if roundTo 3 (b - w) < t.min ∨ roundTo 3 (b - w) > t.max then
            some ("Brent-WTI:" ++
              (if roundTo 3 (b - w) < t.min then "BELOW min" else "ABOVE max"))
          else none
      | none => none
  | _, _ => none

/-- All breach keys of one cycle, in evaluation order. -/
def cycleKeys (data : Snapshot) : List String :=
  data.forex.filterMap forexBreachKey ++ (spreadBreachKey data).toList

theorem checkForexItem_eq (active : List String) (acc : List String × List String)
    (p : String × MarketEntry) :
    checkForexItem active acc p =
      match forexBreachKey p with
      | none => acc
      | some k => (acc.1 ++ [k], if k ∈ active then acc.2 else acc.2 ++ [k]) := by
  unfold checkForexItem forexBreachKey
  rcases p with ⟨name, e⟩
  dsimp only
  cases hp : e.price with
  | none => rfl
  | some price =>
      by_cases h0 : price ≠ 0
      · cases ht : lookupKey name THRESHOLDS with
        | none => simp [h0]
        | some t =>
            by_cases hbr : price < t.min ∨ price > t.max
            · simp [h0, hbr]
            · simp [h0, hbr]
      · simp [h0]

theorem foldl_checkForexItem (active : List String)
    (l : List (String × MarketEntry)) (acc : List String × List String) :
    l.foldl (checkForexItem active) acc =
      (acc.1 ++ l.filterMap forexBreachKey,
       acc.2 ++ (l.filterMap forexBreachKey).filter (fun k => decide (k ∉ active))) := by
  induction l generalizing acc with
  | nil => simp
  | cons hd tl ih =>
      rw [List.foldl_cons, checkForexItem_eq]
      cases hk : forexBreachKey hd with
      | none =>
          rw [ih]
          simp [List.filterMap_cons, hk]
      | some k =>
          rw [ih]
          by_cases hm : k ∈ active
          · simp [List.filterMap_cons, hk, List.filter_cons, hm]
          · simp [List.filterMap_cons, hk, List.filter_cons, hm]

theorem checkSpread_eq (active : List String) (acc : List String × List String)
    (data : Snapshot) :
    checkSpread active acc data =
      match spreadBreachKey data with
      | none => acc
      | some k => (acc.1 ++ [k], if k ∈ active then acc.2 else acc.2 ++ [k]) := by
  unfold checkSpread spreadBreachKey
  rcases hw : truthyPrice (lookupKey "WTI Crude Oil" data.commodities) with _ | w
  · rfl
  · rcases hb : truthyPrice (lookupKey "Brent Crude Oil" data.commodities) with _ | b
    · rfl
    · rcases ht : lookupKey "Brent-WTI Spread" THRESHOLDS with _ | t
      · rfl
      · by_cases hbr : roundTo 3 (b - w) < t.min ∨ roundTo 3 (b - w) > t.max
        · simp [hbr]
        · simp [hbr]

theorem check_thresholds_eq (data : Snapshot) (active : List String) :
    check_thresholds data active =
      (cycleKeys data,
       (cycleKeys data).filter (fun k => decide (k ∉ active)),
       active.filter (fun k => decide (k ∉ cycleKeys data))) := by
  simp only [check_thresholds]
  rw [foldl_checkForexItem, checkSpread_eq]
  cases hk : spreadBreachKey data with
  | none =>
      have hc : cycleKeys data = data.forex.filterMap forexBreachKey := by
        simp [cycleKeys, hk]
      rw [hc]
      simp
  | some k =>
      have hc : cycleKeys data = data.forex.filterMap forexBreachKey ++ [k] := by
        simp [cycleKeys, hk]
      rw [hc]
      by_cases hm : k ∈ active
      · simp [hm, List.filter_append, List.filter_cons, List.append_assoc]
      · simp [hm, List.filter_append, List.filter_cons, List.append_assoc]

/-- Claim C6: each cycle computes a `subject:direction` key for every
breach; a breach is reported as newly fired exactly when its key is not in
the previous cycle's active key set; a key is reported as resolved exactly
when it was active and is absent from the current breach keys; and the
classification depends on the previous state only through key-set
membership — the only state carried to the next cycle is the current key
set (the first component, assigned to `active_alerts`). -/
theorem claim_C6_transition_keys (data : Snapshot) (active : List String) :
    (∀ k, k ∈ (check_thresholds data active).2.1 ↔
        k ∈ (check_thresholds data active).1 ∧ k ∉ active) ∧
    (∀ k, k ∈ (check_thresholds data active).2.2 ↔
        k ∈ active ∧ k ∉ (check_thresholds data active).1) ∧
    (∀ active' : List String, (∀ k, k ∈ active ↔ k ∈ active') →
        (check_thresholds data active).1 = (check_thresholds data active').1 ∧
        (∀ k, k ∈ (check_thresholds data active).2.1 ↔
            k ∈ (check_thresholds data active').2.1) ∧
        (∀ k, k ∈ (check_thresholds data active).2.2 ↔
            k ∈ (check_thresholds data active').2.2)) := by
  refine ⟨fun k => ?_, fun k => ?_, fun active' hip => ?_⟩
  · simp [check_thresholds_eq, and_comm]
  · simp [check_thresholds_eq, and_comm]
  · refine ⟨by simp [check_thresholds_eq], fun k => ?_, fun k => ?_⟩
    · simp [check_thresholds_eq, hip k]
    · simp [check_thresholds_eq, hip k]

/-- Witness for C6: with EUR/USD at 1.02 and the spread at 6.5 while only
the spread key was already active, exactly the EUR/USD key is newly fired. -/
theorem claim_C6_witness :
    "EUR/USD:BELOW min" ∈ (check_thresholds c1data ["Brent-WTI:ABOVE max"]).2.1 ∧
    "Brent-WTI:ABOVE max" ∈ (check_thresholds c1data ["Brent-WTI:ABOVE max"]).1 ∧
    "Brent-WTI:ABOVE max" ∉ (check_thresholds c1data ["Brent-WTI:ABOVE max"]).2.1 := by
  have hfb : forexBreachKey ("EUR/USD", mkEntry "EURUSD=X" (some 1.02)) =
      some "EUR/USD:BELOW min" := by
    have ht : lookupKey "EUR/USD" THRESHOLDS = some ⟨1.05, 1.15⟩ := rfl
    norm_num [forexBreachKey, mkEntry, ht]
    rfl
  have hb76 : truthyPrice (lookupKey "Brent Crude Oil" c1data.commodities) =
      some 76.5 := by
    have hlb : lookupKey "Brent Crude Oil" c1data.commodities =
        some (mkEntry "BZ=F" (some 76.5)) := rfl
    rw [hlb]
    norm_num [truthyPrice, mkEntry]
  have hw70 : truthyPrice (lookupKey "WTI Crude Oil" c1data.commodities) =
      some 70 := rfl
  have hr : roundTo 3 ((13:ℚ) / 2) = 13 / 2 := by
    have h : ((13:ℚ) / 2) * 10 ^ 3 = ((6500:ℤ):ℚ) := by norm_num
    rw [roundTo, h, roundHalfEven_intCast]
    norm_num
  have hsb : spreadBreachKey c1data = some "Brent-WTI:ABOVE max" := by
    have ht : lookupKey "Brent-WTI Spread" THRESHOLDS = some ⟨-1.0, 5.0⟩ := rfl
    norm_num [spreadBreachKey, hw70, hb76, ht, hr]
    rfl
  have hcur : (check_thresholds c1data ["Brent-WTI:ABOVE max"]).1 =
      ["EUR/USD:BELOW min", "Brent-WTI:ABOVE max"] := by
    rw [check_thresholds_eq]
    simp [cycleKeys, show c1data.forex =
      [("EUR/USD", mkEntry "EURUSD=X" (some 1.02))] from rfl, hfb, hsb]
  have h := claim_C6_transition_keys c1data ["Brent-WTI:ABOVE max"]
  refine ⟨(h.1 _).mpr ⟨by rw [hcur]; simp, by decide⟩, by rw [hcur]; simp,
    fun hmem => ?_⟩
  exact ((h.1 _).mp hmem).2 (by simp)

/-! ## Claim C2 -/

/-- Claim C2: a per-instrument fetch failure never escapes the fetch —
`get_price` is total and turns the raised error into a quote whose only
populated data field is the error — and the snapshot of the same cycle is
still produced with an entry for every configured instrument, each
depending only on its own symbol's fetch outcome, so all other
instruments' quotes are unaffected. -/
theorem claim_C2_fetch_failure_isolated
    (now : String) (env : String → FetchOutcome) (name sym msg : String)
    (hmem : (name, sym) ∈ FOREX_PAIRS) (henv : env sym = .err msg) :
    lookupKey name (fetch_all_prices now env).forex =
      some (entryOf sym { price := none, previous_close := none, change := none,
                          change_pct := none, error := some msg }) ∧
    (∀ name' sym', (name', sym') ∈ FOREX_PAIRS →
      lookupKey name' (fetch_all_prices now env).forex =
        some (entryOf sym' (get_price (env sym')))) ∧
    (∀ name' sym', (name', sym') ∈ COMMODITIES →
      lookupKey name' (fetch_all_prices now env).commodities =
        some (entryOf sym' (get_price (env sym')))) := by
  have hforex : ∀ name' sym', (name', sym') ∈ FOREX_PAIRS →
      lookupKey name' (fetch_all_prices now env).forex =
        some (entryOf sym' (get_price (env sym'))) := by
    intro name' sym' hm
    simp only [FOREX_PAIRS, List.mem_cons, Prod.mk.injEq,
      List.not_mem_nil, or_false] at hm
    rcases hm with ⟨rfl, rfl⟩ | ⟨rfl, rfl⟩ | ⟨rfl, rfl⟩ | ⟨rfl, rfl⟩ <;> rfl
  refine ⟨?_, hforex, ?_⟩
  · have h := hforex name sym hmem
    rw [henv] at h
    exact h
  · intro name' sym' hm
    simp only [COMMODITIES, List.mem_cons, Prod.mk.injEq,
      List.not_mem_nil, or_false] at hm
    rcases hm with ⟨rfl, rfl⟩ | ⟨rfl, rfl⟩ <;> rfl

/-- A concrete fetch environment in which exactly the EUR/USD symbol
fails. -/
def env0 : String → FetchOutcome :=
  fun s => if s = "EURUSD=X" then .err "boom" else .ok 2 1

/-- Witness for C2: under `env0` the EUR/USD quote is error-only while
GBP/USD still carries its own fetched quote. -/
theorem claim_C2_witness :
    lookupKey "EUR/USD" (fetch_all_prices "t" env0).forex =
      some (entryOf "EURUSD=X"
        { price := none, previous_close := none, change := none,
          change_pct := none, error := some "boom" }) ∧
    lookupKey "GBP/USD" (fetch_all_prices "t" env0).forex =
      some (entryOf "GBPUSD=X" (get_price (env0 "GBPUSD=X"))) := by
  have h := claim_C2_fetch_failure_isolated "t" env0 "EUR/USD" "EURUSD=X" "boom"
    (by simp [FOREX_PAIRS]) rfl
  exact ⟨h.1, h.2.1 "GBP/USD" "GBPUSD=X" (by simp [FOREX_PAIRS])⟩

/-! ## Concurrency model and Claim C3

The shared state of `main.py` (`latest_data`, `active_alerts`, `history`)
is mutated only inside `with lock:` in `poller` and read only inside
`with lock:` in the endpoints.  We model this as an interleaving state
machine: lock acquisition is atomic and exclusive, the writer's three
assignments are separate atomic actions ordered by a program counter, and
a reader observes the state while it holds the lock.  The ghost field
`log` records, in order, every (Snapshot, Alerts) pair whose two
assignments have both completed — i.e. the pairs published together by one
locked section of `poller`. -/

inductive Agent
  | writer
  | reader (id : ℕ)
deriving DecidableEq

/-- Program counter of the writer inside `with lock:` in `poller`:
`latest_data = data`; `active_alerts = alerts`; `history.append(...)`. -/
inductive WriterPC
  | idle
  | locked
  | dataSet
  | alertsSet
  | appended
deriving DecidableEq

structure ConcState where
  owner : Option Agent
  wpc : WriterPC
  pending : Option (Snapshot × List Alert)
  latest_data : Option Snapshot
  active_alerts : List Alert
  history : List HistoryEntry
  log : List (Snapshot × List Alert)

def initConc : ConcState :=
  { owner := none, wpc := .idle, pending := none,
    latest_data := none, active_alerts := [], history := [], log := [] }

/-- One atomic step of the system. -/
inductive ConcStep : ConcState → ConcState → Prop
  | wAcquire (s : ConcState) (p : Snapshot × List Alert)
      (h1 : s.owner = none) (h2 : s.wpc = .idle) :
      ConcStep s { s with owner := some .writer, wpc := .locked, pending := some p }
  | wSetData (s : ConcState) (d : Snapshot) (a : List Alert)
      (h1 : s.wpc = .locked) (h2 : s.pending = some (d, a)) :
      ConcStep s { s with latest_data := some d, wpc := .dataSet }
  | wSetAlerts (s : ConcState) (d : Snapshot) (a : List Alert)
      (h1 : s.wpc = .dataSet) (h2 : s.pending = some (d, a)) :
      ConcStep s { s with active_alerts := a, wpc := .alertsSet,
                          log := s.log ++ [(d, a)] }
  | wAppend (s : ConcState) (d : Snapshot) (a : List Alert)
      (h1 : s.wpc = .alertsSet) (h2 : s.pending = some (d, a)) :
      ConcStep s { s with history := dequeAppend MAX_HISTORY s.history (d, a),
                          wpc := .appended }
  | wRelease (s : ConcState) (h1 : s.wpc = .appended) :
      ConcStep s { s with owner := none, wpc := .idle, pending := none }
  | rAcquire (s : ConcState) (i : ℕ) (h1 : s.owner = none) :
      ConcStep s { s with owner := some (.reader i) }
  | rRelease (s : ConcState) (i : ℕ) (h1 : s.owner = some (.reader i)) :
      ConcStep s { s with owner := none }

inductive Reach : ConcState → Prop
  | init : Reach initConc
  | step {s t : ConcState} : Reach s → ConcStep s t → Reach t

/-- The pair `(latest_data, active_alerts)` is either still the initial
state or exactly the most recently completed publish. -/
def pairConsistent (s : ConcState) : Prop :=
  (s.log = [] ∧ s.latest_data = none ∧ s.active_alerts = []) ∨
  (∃ d a, s.log.getLast? = some (d, a) ∧
    s.latest_data = some d ∧ s.active_alerts = a)

def ConcInv (s : ConcState) : Prop :=
  (s.wpc ≠ .idle → s.owner = some .writer) ∧
  (s.wpc = .dataSet → ∃ d a, s.pending = some (d, a) ∧ s.latest_data = some d) ∧
  (s.wpc = .alertsSet → ∃ d a, s.pending = some (d, a) ∧
    s.log.getLast? = some (d, a)) ∧
  (s.wpc ≠ .dataSet → pairConsistent s) ∧
  (∀ e ∈ s.history, e ∈ s.log)

theorem concStep_inv {s t : ConcState} (hi : ConcInv s) (hs : ConcStep s t) :
    ConcInv t := by
  obtain ⟨i1, i2, i3, i4, i5⟩ := hi
  cases hs with
  | wAcquire p h1 h2 =>
      exact ⟨fun _ => rfl, fun h => WriterPC.noConfusion h,
        fun h => WriterPC.noConfusion h,
        fun _ => i4 (by rw [h2]; decide), i5⟩
  | wSetData d a h1 h2 =>
      exact ⟨fun _ => i1 (by rw [h1]; decide), fun _ => ⟨d, a, h2, rfl⟩,
        fun h => WriterPC.noConfusion h, fun h => absurd rfl h, i5⟩
  | wSetAlerts d a h1 h2 =>
      obtain ⟨d', a', hp, hl⟩ := i2 h1
      rw [h2] at hp
      injection hp with hp2
      obtain ⟨rfl, rfl⟩ := Prod.mk.injEq .. |>.mp hp2
      refine ⟨fun _ => i1 (by rw [h1]; decide), fun h => WriterPC.noConfusion h,
        fun _ => ⟨d, a, h2, List.getLast?_concat _⟩,
        fun _ => Or.inr ⟨d, a, List.getLast?_concat _, hl, rfl⟩,
        fun e he => List.mem_append_left _ (i5 e he)⟩
  | wAppend d a h1 h2 =>
      obtain ⟨d', a', hp, hg⟩ := i3 h1
      rw [h2] at hp
      injection hp with hp2
      obtain ⟨rfl, rfl⟩ := Prod.mk.injEq .. |>.mp hp2
      refine ⟨fun _ => i1 (by rw [h1]; decide), fun h => WriterPC.noConfusion h,
        fun h => WriterPC.noConfusion h, fun _ => i4 (by rw [h1]; decide),
        fun e he => ?_⟩
      rw [dequeAppend_eq_drop] at he
      have he2 := List.drop_subset _ _ he
      rcases List.mem_append.mp he2 with h | h
      · exact i5 e h
      · rw [List.mem_singleton.mp h]
        exact List.mem_of_getLast?_eq_some hg
  | wRelease h1 =>
      exact ⟨fun h => absurd rfl h, fun h => WriterPC.noConfusion h,
        fun h => WriterPC.noConfusion h, fun _ => i4 (by rw [h1]; decide), i5⟩
  | rAcquire i h1 =>
      refine ⟨fun h => ?_, i2, i3, i4, i5⟩
      have h2 := i1 h
      rw [h1] at h2
      exact Option.noConfusion h2
  | rRelease i h1 =>
      refine ⟨fun h => ?_, i2, i3, i4, i5⟩
      have h2 := i1 h
      rw [h1] at h2
      simp at h2

theorem reach_inv {s : ConcState} (h : Reach s) : ConcInv s := by
  induction h with
  | init =>
      exact ⟨fun h => absurd rfl h, fun h => absurd h (by decide),
        fun h => absurd h (by decide), fun _ => Or.inl ⟨rfl, rfl, rfl⟩,
        fun e he => absurd he (List.not_mem_nil e)⟩
  | step _ hs ih => exact concStep_inv ih hs

/-- Claim C3: in every reachable state in which a reader holds the lock —
the only states in which an endpoint reads the shared fields — the pair
`(latest_data, active_alerts)` is exactly the pair published together by
the most recently completed locked publish section (or the initial empty
state before any publish), and every history entry is such a published
pair; no interleaving with the writer can expose a torn pair, since all
publishes and reads are serialized by the single lock. -/
theorem claim_C3_reader_consistency (s : ConcState) (i : ℕ)
    (hr : Reach s) (ho : s.owner = some (.reader i)) :
    pairConsistent s ∧ ∀ e ∈ s.history, e ∈ s.log := by
  obtain ⟨i1, i2, i3, i4, i5⟩ := reach_inv hr
  refine ⟨?_, i5⟩
  apply i4
  intro hpc
  have hw := i1 (by rw [hpc]; decide)
  rw [ho] at hw
  simp at hw

/-- Witness for C3: a reader that acquires the lock right after start-up
observes a consistent pair. -/
theorem claim_C3_witness :
    pairConsistent { initConc with owner := some (.reader 0) } ∧
    ∀ e ∈ ({ initConc with owner := some (.reader 0) } : ConcState).history,
      e ∈ ({ initConc with owner := some (.reader 0) } : ConcState).log :=
  claim_C3_reader_consistency _ 0
    (Reach.step Reach.init (ConcStep.rAcquire initConc 0 rfl)) rfl

end Quant
